import Mathlib

/-!
Verification of the Schema Reconciliation & Layout Materialization Engine
(`generate_silver_views/analysis_silver_views.py` and
`generate_silver_views/generate_silver_views.py`).

The pure algorithmic core is embedded as Lean functions over explicit lists:
the field classifier (`analyze_table_fields_across_companies`), the type
consensus resolver (`determine_consensus_type` / `analyze_data_types_for_table`),
the layout builder (`build_layout_definition_array`), the per-tenant projection
generator (`generate_silver_view_sql_from_metadata` together with
`generate_cast_for_field` and `get_default_value_for_type_with_cast`), the
persistence payload of `save_analysis_to_metadata`, and the metadata loader
`get_table_metadata_from_metadata_table`.

Python's `list(set(...))` enumerates the members of a list in an unspecified
order without duplicates; it is modelled by an arbitrary function satisfying
`IsSetEnum` so that theorems quantify over every enumeration order the
interpreter could produce.
-/

/-- One observed column of one tenant's table, as a row of the data frame
produced by `get_table_fields_with_types` after STRUCT flattening: the
column name (possibly dotted), the declared type, the alias written into
projections, and the repeated/array marker. -/
structure FieldInfo where
  column_name : String
  data_type : String
  alias_name : String
  is_repeated_record : Bool
deriving Repr, DecidableEq

/-- One tenant (company) together with the raw observed columns of the
analyzed table, before the ETL-control-field filter. -/
structure CompanyFields where
  company_name : String
  raw_fields : List FieldInfo
deriving Repr, DecidableEq

/-- One entry of `table_analysis_results`: a company that has the table,
with its filtered field rows. -/
structure CompanyResult where
  company_name : String
  fields : List FieldInfo
deriving Repr, DecidableEq

/-- One row of the canonical layout built by `build_layout_definition_array`
and persisted into `silver_layout_definition`. -/
structure LayoutField where
  field_name : String
  target_type : String
  field_order : Nat
  has_type_conflict : Bool
  is_partial_flag : Bool
  alias_name : String
  is_repeated : Bool
deriving Repr, DecidableEq

/-- A function models Python's `list(set(...))` iff it returns the members of
its input without duplicates, in some order. -/
def IsSetEnum (uniq : List String → List String) : Prop :=
  ∀ l : List String, (uniq l).Nodup ∧ ∀ a : String, a ∈ uniq l ↔ a ∈ l

/-- First-character test, a kernel-reducible rendering of the Python prefix
test `str.startswith(c)` for a one-character prefix `c`. -/
def startsWithChar (c : Char) (s : String) : Bool :=
  match s.data with
  | [] => false
  | d :: _ => d == c

/-- ETL control-field filter of `analyze_table_fields_across_companies`:
`fields_df[~fields_df『column_name』.str.startswith(『_』)]`. -/
def filterControlFields (fields : List FieldInfo) : List FieldInfo :=
  fields.filter (fun f => !(startsWithChar (Char.ofNat 95) f.column_name))

/-- Per-company gathering loop of `analyze_table_fields_across_companies`:
companies whose table query returned an empty frame are skipped (they do not
count toward `total_companies`), the rest keep their filtered field rows. -/
def analyzeCompanies (companies : List CompanyFields) : List CompanyResult :=
  (companies.filter (fun c => !c.raw_fields.isEmpty)).map
    (fun c => { company_name := c.company_name, fields := filterControlFields c.raw_fields })

/-- Column names of one company entry (`fields_list` in the source). -/
def companyFieldNames (r : CompanyResult) : List String :=
  r.fields.map (·.column_name)

/-- Occurrence count of `field_frequency` (a `Counter` updated with every
company's field list). -/
def fieldFrequency (results : List CompanyResult) (f : String) : Nat :=
  (results.map (fun r => (companyFieldNames r).count f)).sum

/-- All observed column names, with multiplicity (the stream the `Counter`
and the per-field type dictionaries are fed from). -/
def allFieldsList (results : List CompanyResult) : List String :=
  (results.map companyFieldNames).flatten

/-- The key set of `field_frequency` / `field_type_analysis`, one entry per
distinct observed column name (`set` enumeration modelled by `uniq`). -/
def allObservedFields (uniq : List String → List String)
    (results : List CompanyResult) : List String :=
  uniq (allFieldsList results)

/-- Classifier output `common_fields`: observed fields whose count equals
`total_companies`. -/
def commonFields (uniq : List String → List String)
    (results : List CompanyResult) : List String :=
  (allObservedFields uniq results).filter
    (fun f => decide (fieldFrequency results f = results.length))

/-- Classifier output `partial_fields`: every other observed field. -/
def partialFields (uniq : List String → List String)
    (results : List CompanyResult) : List String :=
  (allObservedFields uniq results).filter
    (fun f => decide (¬ fieldFrequency results f = results.length))

/-- Declared types collected for one field name across companies, in company
order (`field_type_analysis[field_name]` restricted to `data_type`). -/
def fieldTypes (results : List CompanyResult) (f : String) : List String :=
  (results.map (fun r =>
    (r.fields.filter (fun g => g.column_name == f)).map (·.data_type))).flatten

/-- Resolver of `determine_consensus_type`: a single distinct observed type is
returned as is, any heterogeneity collapses to STRING. -/
def determine_consensus_type (uniq : List String → List String)
    (types : List String) : String :=
  let unique_types := uniq types
  if unique_types.length = 1 then unique_types.headD "STRING" else "STRING"

/-- Per-field outcome of `analyze_data_types_for_table`: the conflict flag
(`field_name in type_conflicts`) paired with the target type
(`consensus_type` on conflict, the unique declared type otherwise). -/
def fieldTypeResolution (uniq : List String → List String)
    (results : List CompanyResult) (f : String) : Bool × String :=
  let unique_types := uniq (fieldTypes results f)
  if unique_types.length > 1 then
    (true, determine_consensus_type uniq unique_types)
  else
    (false, unique_types.headD "")

/-- Alias lookup of `build_layout_definition_array`: `first_company_fields`
is a dictionary filled from the first company's rows (later rows overwrite
earlier ones on key collision). -/
def firstCompanyFieldInfo (results : List CompanyResult) (f : String) : Option FieldInfo :=
  match results.head? with
  | none => none
  | some r => (r.fields.filter (fun g => g.column_name == f)).getLast?

/-- One layout record of `build_layout_definition_array` for field `f` at
position `order`. -/
def layoutFieldFor (uniq : List String → List String)
    (results : List CompanyResult) (order : Nat) (f : String) : LayoutField :=
  let res := fieldTypeResolution uniq results f
  let info := firstCompanyFieldInfo results f
  { field_name := f
    target_type := res.2
    field_order := order
    has_type_conflict := res.1
    is_partial_flag := decide (f ∈ partialFields uniq results)
    alias_name := (info.map (·.alias_name)).getD f
    is_repeated := (info.map (·.is_repeated_record)).getD false }

/-- Lexicographic code-point comparison of character lists, the order Python
uses when comparing strings. -/
def strLeB : List Char → List Char → Bool
  | [], _ => true
  | _ :: _, [] => false
  | a :: as, b :: bs =>
    if a.toNat < b.toNat then true
    else if b.toNat < a.toNat then false
    else strLeB as bs

/-- String comparison `a <= b` as Python evaluates it for `sorted`. -/
def strLe (a b : String) : Bool :=
  strLeB a.data b.data

/-- The string order relation used by the embedded `sorted`. -/
def StrLeRel (a b : String) : Prop :=
  strLe a b = true

instance strLeRelDecidable : DecidableRel StrLeRel :=
  fun a b => instDecidableEqBool (strLe a b) true

/-- Sorted field enumeration of the builder:
`sorted(set(field_consensus) | set(type_conflicts))`, i.e. the distinct
observed field names in name sort order. -/
def sortedFieldNames (uniq : List String → List String)
    (results : List CompanyResult) : List String :=
  List.insertionSort StrLeRel (allObservedFields uniq results)

/-- Enumeration loop of the builder, `enumerate(sorted_field_names, start=1)`. -/
def buildLayoutFrom (uniq : List String → List String)
    (results : List CompanyResult) : Nat → List String → List LayoutField
  | _, [] => []
  | order, f :: rest =>
    layoutFieldFor uniq results order f :: buildLayoutFrom uniq results (order + 1) rest

/-- The layout builder `build_layout_definition_array`. -/
def build_layout_definition_array (uniq : List String → List String)
    (results : List CompanyResult) : List LayoutField :=
  buildLayoutFrom uniq results 1 (sortedFieldNames uniq results)

/-- Persistence payload of `save_analysis_to_metadata`: the `struct_list`
rebuilt field by field from the layout array, with no validation. -/
def save_struct_list (layout : List LayoutField) : List LayoutField :=
  layout.map (fun field =>
    { field_name := field.field_name
      target_type := field.target_type
      field_order := field.field_order
      has_type_conflict := field.has_type_conflict
      is_partial_flag := field.is_partial_flag
      alias_name := field.alias_name
      is_repeated := field.is_repeated })

/-- Cast generator `generate_cast_for_field` of `generate_silver_views.py`. -/
def generate_cast_for_field (field_name source_type target_type : String) : String :=
  if source_type = target_type then field_name
  else if target_type = "STRING" then
    if source_type = "JSON" then
      "COALESCE(TO_JSON_STRING(" ++ field_name ++ "), '')"
    else if source_type = "STRUCT" ∨ source_type = "ARRAY" ∨ source_type = "RECORD" then
      "COALESCE(TO_JSON_STRING(" ++ field_name ++ "), '')"
    else
      "CAST(" ++ field_name ++ " AS STRING)"
  else if source_type = "STRING" then
    "CAST(" ++ field_name ++ " AS STRING)"
  else
    "SAFE_CAST(" ++ field_name ++ " AS " ++ target_type ++ ")"

/-- Null-default table `get_default_value_for_type_with_cast`; types outside
the dictionary fall through to the bare `NULL` default. -/
def get_default_value_for_type_with_cast (data_type : String) : String :=
  if data_type = "STRING" then "CAST(NULL AS STRING)"
  else if data_type = "INT64" then "CAST(NULL AS INT64)"
  else if data_type = "FLOAT64" then "CAST(NULL AS FLOAT64)"
  else if data_type = "BOOL" then "CAST(NULL AS BOOL)"
  else if data_type = "DATE" then "CAST(NULL AS DATE)"
  else if data_type = "DATETIME" then "CAST(NULL AS DATETIME)"
  else if data_type = "TIMESTAMP" then "CAST(NULL AS TIMESTAMP)"
  else if data_type = "JSON" then "CAST(NULL AS JSON)"
  else if data_type = "BYTES" then "CAST(NULL AS BYTES)"
  else "NULL"

/-- Tenant type lookup of `generate_silver_view_sql_from_metadata`: the
`company_fields` dictionary maps a column name to its declared type (later
rows overwrite earlier ones); `none` means the tenant lacks the field. -/
def companyFieldType (companyFields : List FieldInfo) (f : String) : Option String :=
  ((companyFields.filter (fun g => g.column_name == f)).getLast?).map (·.data_type)

/-- One projection entry of `generate_silver_view_sql_from_metadata` for one
layout field: repeated fields are serialized with TO_JSON_STRING, matching
types pass through, mismatching types go through `generate_cast_for_field`,
and a missing field becomes the null default of the target type (aliased by
`field_name`, not `alias_name`). -/
def projectionLine (companyFields : List FieldInfo) (fi : LayoutField) : String :=
  match companyFieldType companyFields fi.field_name with
  | some source_type =>
    let cast_expression :=
      if fi.is_repeated then "TO_JSON_STRING(" ++ fi.field_name ++ ")"
      else if source_type = fi.target_type then fi.field_name
      else generate_cast_for_field fi.field_name source_type fi.target_type
    "    " ++ cast_expression ++ " as " ++ fi.alias_name
  | none =>
    "    " ++ get_default_value_for_type_with_cast fi.target_type ++ " as " ++ fi.field_name

/-- The ordered `silver_fields` list of `generate_silver_view_sql_from_metadata`:
one projection line per layout field, in layout order. -/
def generate_silver_view_fields (companyFields : List FieldInfo)
    (layout : List LayoutField) : List String :=
  layout.map (projectionLine companyFields)

/-- Outcome of the metadata query issued by
`get_table_metadata_from_metadata_table`: the query can raise, return no row,
or return a row carrying the (possibly NULL or empty) layout array, the
`silver_use_bronze` flag and the status string. -/
inductive LoadResult where
  | queryError : String → LoadResult
  | notFound : LoadResult
  | found : Option (List LayoutField) → Option Bool → String → LoadResult
deriving Repr, DecidableEq

/-- Parsed metadata record returned by `get_table_metadata_from_metadata_table`. -/
structure MetadataInfo where
  layout_definition : List LayoutField
  use_bronze : Bool
  status : String
deriving Repr, DecidableEq

/-- Loader `get_table_metadata_from_metadata_table`: every exception is caught
and mapped to `None`, exactly like a missing row or a NULL/empty layout; a
found layout is sorted by `field_order` ascending. -/
def get_table_metadata_from_metadata_table (r : LoadResult) : Option MetadataInfo :=
  match r with
  | .queryError _ => none
  | .notFound => none
  | .found layoutOpt ub st =>
    match layoutOpt with
    | none => none
    | some layout =>
      if layout.isEmpty then none
      else
        some { layout_definition :=
                 List.insertionSort (fun a b => a.field_order ≤ b.field_order) layout
               use_bronze := ub.getD false
               status := st }

/-- What `generate_all_silver_views` does with one table in metadata mode. -/
inductive TableAction where
  | skipNoLayout : TableAction
  | generate : List LayoutField → Bool → TableAction
deriving Repr, DecidableEq

/-- Per-table dispatch of `generate_all_silver_views` (metadata mode): a `None`
loader result records status 0 for every company and skips the table; a loaded
layout is handed to the projection generator. -/
def silverTableAction (r : LoadResult) : TableAction :=
  match get_table_metadata_from_metadata_table r with
  | none => TableAction.skipNoLayout
  | some m => TableAction.generate m.layout_definition m.use_bronze

/-! Order-theoretic facts about the embedded Python string order, and general
helper lemmas shared by several claims. -/

theorem strLeB_total : ∀ as bs : List Char, strLeB as bs = true ∨ strLeB bs as = true := by
  intro as
  induction as with
  | nil => intro bs; left; rfl
  | cons a as ih =>
    intro bs
    cases bs with
    | nil => right; rfl
    | cons b bs =>
      simp only [strLeB]
      rcases Nat.lt_trichotomy a.toNat b.toNat with h | h | h
      · left; simp [h]
      · have h1 : ¬ a.toNat < b.toNat := by omega
        have h2 : ¬ b.toNat < a.toNat := by omega
        simpa [h1, h2] using ih bs
      · right; simp [h, Nat.lt_asymm h]

theorem strLeB_trans : ∀ as bs cs : List Char,
    strLeB as bs = true → strLeB bs cs = true → strLeB as cs = true := by
  intro as
  induction as with
  | nil => intro bs cs _ _; rfl
  | cons a as ih =>
    intro bs cs hab hbc
    cases bs with
    | nil => simp [strLeB] at hab
    | cons b bs =>
      cases cs with
      | nil => simp [strLeB] at hbc
      | cons c cs =>
        simp only [strLeB] at hab hbc ⊢
        rcases Nat.lt_trichotomy a.toNat b.toNat with h1 | h1 | h1
        · rcases Nat.lt_trichotomy b.toNat c.toNat with h2 | h2 | h2
          · have h3 : a.toNat < c.toNat := Nat.lt_trans h1 h2
            simp [h3]
          · have h3 : a.toNat < c.toNat := by omega
            simp [h3]
          · simp [Nat.lt_asymm h2, h2] at hbc
        · rcases Nat.lt_trichotomy b.toNat c.toNat with h2 | h2 | h2
          · have h3 : a.toNat < c.toNat := by omega
            simp [h3]
          · have e1 : ¬ a.toNat < b.toNat := by omega
            have e2 : ¬ b.toNat < a.toNat := by omega
            have e3 : ¬ b.toNat < c.toNat := by omega
            have e4 : ¬ c.toNat < b.toNat := by omega
            have e5 : ¬ a.toNat < c.toNat := by omega
            have e6 : ¬ c.toNat < a.toNat := by omega
            simp only [e1, e2, if_false, if_neg] at hab
            simp only [e3, e4, if_false, if_neg] at hbc
            simp only [e5, e6, if_false, if_neg]
            exact ih bs cs hab hbc
          · simp [Nat.lt_asymm h2, h2] at hbc
        · simp [Nat.lt_asymm h1, h1] at hab

theorem strLeB_antisymm : ∀ as bs : List Char,
    strLeB as bs = true → strLeB bs as = true → as = bs := by
  intro as
  induction as with
  | nil =>
    intro bs _ hba
    cases bs with
    | nil => rfl
    | cons b bs => simp [strLeB] at hba
  | cons a as ih =>
    intro bs hab hba
    cases bs with
    | nil => simp [strLeB] at hab
    | cons b bs =>
      simp only [strLeB] at hab hba
      rcases Nat.lt_trichotomy a.toNat b.toNat with h1 | h1 | h1
      · simp [Nat.lt_asymm h1, h1] at hba
      · have e1 : ¬ a.toNat < b.toNat := by omega
        have e2 : ¬ b.toNat < a.toNat := by omega
        simp only [e1, e2, if_false, if_neg] at hab hba
        have hc : a = b := by
          have h3 := congrArg Char.ofNat h1
          rwa [Char.ofNat_toNat, Char.ofNat_toNat] at h3
        rw [hc, ih bs hab hba]
      · simp [Nat.lt_asymm h1, h1] at hab

instance strLeRelIsTotal : IsTotal String StrLeRel :=
  ⟨fun a b => strLeB_total a.data b.data⟩

instance strLeRelIsTrans : IsTrans String StrLeRel :=
  ⟨fun a b c => strLeB_trans a.data b.data c.data⟩

instance strLeRelIsAntisymm : IsAntisymm String StrLeRel := by
  constructor
  intro a b hab hba
  have h := strLeB_antisymm a.data b.data hab hba
  exact congrArg String.mk h

theorem isSetEnum_dedup : IsSetEnum List.dedup := by
  intro l
  exact ⟨l.nodup_dedup, fun a => List.mem_dedup⟩

theorem setEnum_perm {u₁ u₂ : List String → List String}
    (h₁ : IsSetEnum u₁) (h₂ : IsSetEnum u₂) (l : List String) :
    List.Perm (u₁ l) (u₂ l) := by
  refine (List.perm_ext_iff_of_nodup (h₁ l).1 (h₂ l).1).2 (fun a => ?_)
  rw [(h₁ l).2 a, (h₂ l).2 a]

theorem setEnum_perm_self {u : List String → List String}
    (h : IsSetEnum u) {l : List String} (hl : l.Nodup) : List.Perm (u l) l :=
  (List.perm_ext_iff_of_nodup (h l).1 hl).2 (fun a => (h l).2 a)

theorem nodup_eq_singleton {l : List String} (hn : l.Nodup) {a : String} (ha : a ∈ l)
    (hall : ∀ x ∈ l, x = a) : l = [a] := by
  cases l with
  | nil => cases ha
  | cons b bs =>
    have hb : b = a := hall b (by simp)
    subst hb
    cases bs with
    | nil => rfl
    | cons c cs =>
      exfalso
      have hcb : c = b := hall c (by simp)
      have hnotin := (List.nodup_cons.mp hn).1
      exact hnotin (by simp [hcb.symm])

theorem determine_consensus_of_nodup_gt_one {u : List String → List String}
    (h : IsSetEnum u) {l : List String} (hnd : l.Nodup) (hlen : 1 < l.length) :
    determine_consensus_type u l = "STRING" := by
  have hp : (u l).length = l.length := (setEnum_perm_self h hnd).length_eq
  have hne : ¬ (u l).length = 1 := by omega
  simp [determine_consensus_type, hne]

theorem buildLayoutFrom_map_name (uniq : List String → List String)
    (results : List CompanyResult) :
    ∀ (names : List String) (k : Nat),
      (buildLayoutFrom uniq results k names).map (·.field_name) = names := by
  intro names
  induction names with
  | nil => intro k; rfl
  | cons f rest ih =>
    intro k
    simp [buildLayoutFrom, layoutFieldFor, ih]

theorem buildLayoutFrom_get_order (uniq : List String → List String)
    (results : List CompanyResult) :
    ∀ (names : List String) (k i : Nat) (h : i < (buildLayoutFrom uniq results k names).length),
      ((buildLayoutFrom uniq results k names).get ⟨i, h⟩).field_order = k + i := by
  intro names
  induction names with
  | nil => intro k i h; simp [buildLayoutFrom] at h
  | cons f rest ih =>
    intro k i h
    cases i with
    | zero => simp [buildLayoutFrom, layoutFieldFor, List.get]
    | succ n =>
      have h2 : n < (buildLayoutFrom uniq results (k + 1) rest).length := by
        have := h
        simp [buildLayoutFrom] at this
        omega
      have h3 := ih (k + 1) n h2
      show ((buildLayoutFrom uniq results (k + 1) rest).get ⟨n, h2⟩).field_order = k + (n + 1)
      rw [h3]
      omega

theorem mem_buildLayoutFrom (uniq : List String → List String)
    (results : List CompanyResult) {fi : LayoutField} :
    ∀ {names : List String} {k : Nat},
      fi ∈ buildLayoutFrom uniq results k names → fi.field_name ∈ names := by
  intro names
  induction names with
  | nil => intro k hmem; cases hmem
  | cons f rest ih =>
    intro k hmem
    rcases List.mem_cons.mp hmem with hc | hc
    · rw [hc]
      simp [layoutFieldFor]
    · exact List.mem_cons_of_mem _ (ih hc)

theorem save_struct_list_id (layout : List LayoutField) : save_struct_list layout = layout := by
  induction layout with
  | nil => rfl
  | cons fi rest ih => simp [save_struct_list]

/-- C2: for every non-empty collection of declared types observed for one
field name, `determine_consensus_type` returns exactly one type and never
raises (the embedded function is total by construction): the common type when
all observed types are identical, and STRING otherwise — for every enumeration
order Python's `set` could produce. -/
theorem claim_C2_consensus (uniq : List String → List String) (h : IsSetEnum uniq)
    (types : List String) (t : String) (ht : t ∈ types) :
    ((∀ x ∈ types, x = t) → determine_consensus_type uniq types = t) ∧
    ((∃ x ∈ types, x ≠ t) → determine_consensus_type uniq types = "STRING") := by
  constructor
  · intro hall
    have hmem : t ∈ uniq types := ((h types).2 t).2 ht
    have hallu : ∀ x ∈ uniq types, x = t := fun x hx => hall x (((h types).2 x).1 hx)
    have hsing : uniq types = [t] := nodup_eq_singleton (h types).1 hmem hallu
    simp [determine_consensus_type, hsing]
  · rintro ⟨x, hx, hxt⟩
    have hmt : t ∈ uniq types := ((h types).2 t).2 ht
    have hmx : x ∈ uniq types := ((h types).2 x).2 hx
    have hlen : ¬ (uniq types).length = 1 := by
      intro h1
      rcases List.length_eq_one.mp h1 with ⟨a, ha⟩
      rw [ha] at hmt hmx
      simp at hmt hmx
      exact hxt (hmx.trans hmt.symm)
    simp [determine_consensus_type, hlen]

/-- Witness for C2 at concrete inputs: a conflicting pair collapses to STRING,
an identical pair keeps its type. -/
theorem claim_C2_witness :
    determine_consensus_type List.dedup ["INT64", "STRING"] = "STRING" ∧
    determine_consensus_type List.dedup ["INT64", "INT64"] = "INT64" := by
  constructor
  · exact (claim_C2_consensus List.dedup isSetEnum_dedup ["INT64", "STRING"] "INT64"
      (by decide)).2 ⟨"STRING", by decide, by decide⟩
  · exact (claim_C2_consensus List.dedup isSetEnum_dedup ["INT64", "INT64"] "INT64"
      (by decide)).1 (by decide)

/-- Example scenario of the specification: tenant A has id:INT64 and
name:STRING, tenant B has id:STRING, name:STRING and note:STRING. -/
def sampleCompanies : List CompanyFields :=
  [⟨"A", [⟨"id", "INT64", "id", false⟩, ⟨"name", "STRING", "name", false⟩]⟩,
   ⟨"B", [⟨"id", "STRING", "id", false⟩, ⟨"name", "STRING", "name", false⟩,
          ⟨"note", "STRING", "note", false⟩]⟩]

/-- C6: a field is classified common (universal) iff its occurrence count
equals the number of companies that contributed observations in the pass
(`results.length`, the companies whose table query returned rows); every other
observed field is classified as partial. -/
theorem claim_C6_classifier (uniq : List String → List String) (h : IsSetEnum uniq)
    (companies : List CompanyFields) (f : String) :
    (f ∈ commonFields uniq (analyzeCompanies companies) ↔
      f ∈ allFieldsList (analyzeCompanies companies) ∧
        fieldFrequency (analyzeCompanies companies) f = (analyzeCompanies companies).length) ∧
    (f ∈ partialFields uniq (analyzeCompanies companies) ↔
      f ∈ allFieldsList (analyzeCompanies companies) ∧
        ¬ fieldFrequency (analyzeCompanies companies) f = (analyzeCompanies companies).length) := by
  constructor
  · rw [commonFields, List.mem_filter, allObservedFields,
      (h (allFieldsList (analyzeCompanies companies))).2 f]
    simp
  · rw [partialFields, List.mem_filter, allObservedFields,
      (h (allFieldsList (analyzeCompanies companies))).2 f]
    simp

/-- Witness for C6 on the specification's example scenario: note is partial
(present in one of two companies), id is common. -/
theorem claim_C6_witness :
    "note" ∈ partialFields List.dedup (analyzeCompanies sampleCompanies) ∧
    "id" ∈ commonFields List.dedup (analyzeCompanies sampleCompanies) := by
  constructor
  · exact (claim_C6_classifier List.dedup isSetEnum_dedup sampleCompanies "note").2.mpr
      (by decide)
  · exact (claim_C6_classifier List.dedup isSetEnum_dedup sampleCompanies "id").1.mpr
      (by decide)

/-- C7: the layout builder assigns `field_order` values 1..N in array
position order, so they form a contiguous range with no gaps or duplicates
and the array is sorted by `field_order` ascending; the persisted
`struct_list` is the layout array unchanged, so the persisted fields array
carries the same order. -/
theorem claim_C7_field_order (uniq : List String → List String) (_h : IsSetEnum uniq)
    (companies : List CompanyFields) :
    (∀ i (hi : i < (build_layout_definition_array uniq (analyzeCompanies companies)).length),
      ((build_layout_definition_array uniq (analyzeCompanies companies)).get
        ⟨i, hi⟩).field_order = i + 1) ∧
    save_struct_list (build_layout_definition_array uniq (analyzeCompanies companies)) =
      build_layout_definition_array uniq (analyzeCompanies companies) := by
  constructor
  · intro i hi
    have h2 := buildLayoutFrom_get_order uniq (analyzeCompanies companies)
      (sortedFieldNames uniq (analyzeCompanies companies)) 1 i hi
    rw [show i + 1 = 1 + i from Nat.add_comm i 1]
    exact h2
  · exact save_struct_list_id _

/-- Witness for C7 on the example scenario: the first two field orders are 1
and 2, and persisting returns the layout unchanged. -/
theorem claim_C7_witness :
    ((build_layout_definition_array List.dedup (analyzeCompanies sampleCompanies)).get
      ⟨0, by decide⟩).field_order = 0 + 1 ∧
    ((build_layout_definition_array List.dedup (analyzeCompanies sampleCompanies)).get
      ⟨1, by decide⟩).field_order = 1 + 1 ∧
    save_struct_list (build_layout_definition_array List.dedup
        (analyzeCompanies sampleCompanies)) =
      build_layout_definition_array List.dedup (analyzeCompanies sampleCompanies) := by
  have h := claim_C7_field_order List.dedup isSetEnum_dedup sampleCompanies
  exact ⟨h.1 0 (by decide), h.1 1 (by decide), h.2⟩

/-- Observations producing a first (persisted) layout over fields b, c. -/
def c1Old : List CompanyFields :=
  [⟨"co1", [⟨"b", "INT64", "b", false⟩, ⟨"c", "INT64", "c", false⟩]⟩]

/-- A later observation set, a strict superset of the fields of `c1Old`:
the same company gained field a. -/
def c1New : List CompanyFields :=
  [⟨"co1", [⟨"a", "INT64", "a", false⟩, ⟨"b", "INT64", "b", false⟩,
            ⟨"c", "INT64", "c", false⟩]⟩]

/-- C1 counterexample: the first pass persists field b at `field_order` 1;
re-running the builder on a superset observation set reassigns b to
`field_order` 2 (all names are re-sorted), so the existing order assignment
is not preserved and the new field a is not appended after the maximum — the
builder never consults any previously persisted layout. -/
theorem claim_C1_counterexample :
    (build_layout_definition_array List.dedup (analyzeCompanies c1Old)).map
      (fun f => (f.field_name, f.field_order)) = [("b", 1), ("c", 2)] ∧
    (build_layout_definition_array List.dedup (analyzeCompanies c1New)).map
      (fun f => (f.field_name, f.field_order)) = [("a", 1), ("b", 2), ("c", 3)] ∧
    (∀ n ∈ (build_layout_definition_array List.dedup (analyzeCompanies c1Old)).map
        (·.field_name),
      n ∈ (build_layout_definition_array List.dedup (analyzeCompanies c1New)).map
        (·.field_name)) :=
  ⟨by decide, by decide, by decide⟩

/-- C1 amended: the layout builder ignores any previously persisted layout
(it has no such input); on every run the produced field list is exactly the
distinct observed column names in name sort order, with `field_order` assigned
by position. Order stability across runs comes only from the generator
short-circuiting to the persisted layout, never from merging. -/
theorem claim_C1_amended (uniq : List String → List String) (_h : IsSetEnum uniq)
    (companies : List CompanyFields) :
    (build_layout_definition_array uniq (analyzeCompanies companies)).map (·.field_name) =
      sortedFieldNames uniq (analyzeCompanies companies) ∧
    List.Sorted StrLeRel
      ((build_layout_definition_array uniq (analyzeCompanies companies)).map
        (·.field_name)) := by
  have hm := buildLayoutFrom_map_name uniq (analyzeCompanies companies)
    (sortedFieldNames uniq (analyzeCompanies companies)) 1
  constructor
  · exact hm
  · show List.Sorted StrLeRel
      ((buildLayoutFrom uniq (analyzeCompanies companies) 1
        (sortedFieldNames uniq (analyzeCompanies companies))).map (·.field_name))
    rw [hm, sortedFieldNames]
    exact List.sorted_insertionSort StrLeRel _

/-- Witness for the amended C1 at the concrete superset scenario. -/
theorem claim_C1_witness :
    (build_layout_definition_array List.dedup (analyzeCompanies c1New)).map (·.field_name) =
      sortedFieldNames List.dedup (analyzeCompanies c1New) ∧
    List.Sorted StrLeRel
      ((build_layout_definition_array List.dedup (analyzeCompanies c1New)).map
        (·.field_name)) :=
  claim_C1_amended List.dedup isSetEnum_dedup c1New

/-- Observations whose STRUCT flattening makes two distinct columns collide on
the same alias: column a.b is flattened to alias a_b while a sibling column is
itself named a_b. -/
def c4Companies : List CompanyFields :=
  [⟨"co1", [⟨"a.b", "INT64", "a_b", false⟩, ⟨"a_b", "STRING", "a_b", false⟩]⟩]

/-- C4 counterexample: the built layout assigns the same `alias_name` a_b to
two different fields, no abort happens (the builder and the persistence
payload are total functions with no duplicate check), and the corrupt layout
is persisted unchanged. -/
theorem claim_C4_counterexample :
    (build_layout_definition_array List.dedup (analyzeCompanies c4Companies)).map
      (fun f => (f.field_name, f.alias_name)) = [("a.b", "a_b"), ("a_b", "a_b")] ∧
    save_struct_list (build_layout_definition_array List.dedup
        (analyzeCompanies c4Companies)) =
      build_layout_definition_array List.dedup (analyzeCompanies c4Companies) :=
  ⟨by decide, by decide⟩

/-- C4 amended: duplicate `field_order` can indeed never occur (orders are the
positions 1..N), but duplicate `alias_name` is not detected: reconciliation
never fails fast, and `save_analysis_to_metadata` persists the built layout
unconditionally and unchanged. -/
theorem claim_C4_amended (uniq : List String → List String) (_h : IsSetEnum uniq)
    (companies : List CompanyFields) :
    (∀ i j (hi : i < (build_layout_definition_array uniq (analyzeCompanies companies)).length)
      (hj : j < (build_layout_definition_array uniq (analyzeCompanies companies)).length),
      i ≠ j →
      ((build_layout_definition_array uniq (analyzeCompanies companies)).get
          ⟨i, hi⟩).field_order ≠
        ((build_layout_definition_array uniq (analyzeCompanies companies)).get
          ⟨j, hj⟩).field_order) ∧
    save_struct_list (build_layout_definition_array uniq (analyzeCompanies companies)) =
      build_layout_definition_array uniq (analyzeCompanies companies) := by
  constructor
  · intro i j hi hj hne
    have h1 := buildLayoutFrom_get_order uniq (analyzeCompanies companies)
      (sortedFieldNames uniq (analyzeCompanies companies)) 1 i hi
    have h2 := buildLayoutFrom_get_order uniq (analyzeCompanies companies)
      (sortedFieldNames uniq (analyzeCompanies companies)) 1 j hj
    rw [show ((build_layout_definition_array uniq (analyzeCompanies companies)).get
        ⟨i, hi⟩).field_order = 1 + i from h1,
      show ((build_layout_definition_array uniq (analyzeCompanies companies)).get
        ⟨j, hj⟩).field_order = 1 + j from h2]
    omega
  · exact save_struct_list_id _

/-- Witness for the amended C4 at the alias-collision input: the two colliding
fields still get distinct orders and the layout is persisted unchanged. -/
theorem claim_C4_witness :
    ((build_layout_definition_array List.dedup (analyzeCompanies c4Companies)).get
        ⟨0, by decide⟩).field_order ≠
      ((build_layout_definition_array List.dedup (analyzeCompanies c4Companies)).get
        ⟨1, by decide⟩).field_order ∧
    save_struct_list (build_layout_definition_array List.dedup
        (analyzeCompanies c4Companies)) =
      build_layout_definition_array List.dedup (analyzeCompanies c4Companies) := by
  have h := claim_C4_amended List.dedup isSetEnum_dedup c4Companies
  exact ⟨h.1 0 1 (by decide) (by decide) (by decide), h.2⟩

/-- The type vocabulary enumerated by `get_default_value_for_type_with_cast`. -/
def knownSilverTypes : List String :=
  ["STRING", "INT64", "FLOAT64", "BOOL", "DATE", "DATETIME", "TIMESTAMP", "JSON", "BYTES"]

/-- C3 counterexample: NUMERIC is a valid warehouse scalar type (so the
consensus of tenants that all declare NUMERIC is NUMERIC), yet it is absent
from the default dictionary, so the projection for a tenant lacking such a
field is the untyped literal NULL, not a typed null of the target type. -/
theorem claim_C3_counterexample :
    get_default_value_for_type_with_cast "NUMERIC" = "NULL" ∧
    generate_silver_view_fields [] [⟨"f", "NUMERIC", 1, false, false, "f", false⟩] =
      ["    NULL as f"] :=
  ⟨by decide, by decide⟩

/-- C3 amended: for a canonical field the tenant lacks, the projection is the
typed literal CAST(NULL AS T) whenever the target type T is one of the nine
types of the default dictionary; outside that vocabulary the emitted default
is the untyped NULL. -/
theorem claim_C3_amended (cf : List FieldInfo) (fi : LayoutField)
    (hmiss : companyFieldType cf fi.field_name = none)
    (hknown : fi.target_type ∈ knownSilverTypes) :
    projectionLine cf fi =
      "    CAST(NULL AS " ++ fi.target_type ++ ") as " ++ fi.field_name := by
  simp only [projectionLine, hmiss]
  simp only [knownSilverTypes, List.mem_cons, List.not_mem_nil, or_false] at hknown
  rcases hknown with h | h | h | h | h | h | h | h | h <;>
    rw [h] <;> rfl

/-- Witness for the amended C3: a tenant with no fields gets a typed STRING
null for the missing field note. -/
theorem claim_C3_witness :
    projectionLine [] ⟨"note", "STRING", 3, false, true, "note", false⟩ =
      "    CAST(NULL AS STRING) as note" :=
  claim_C3_amended [] ⟨"note", "STRING", 3, false, true, "note", false⟩ rfl (by decide)

/-- Modelled from the words of the amended C5: pass-through on equal types;
cast to STRING for a STRING target (JSON-serialization for semi-structured
sources); a STRING source with a non-STRING target is KEPT as STRING; all
remaining pairs get a lenient SAFE_CAST to the target type. -/
def castExprSpec (f src tgt : String) : String :=
  if src = tgt then f
  else if tgt = "STRING" then
    if src = "JSON" ∨ src = "STRUCT" ∨ src = "ARRAY" ∨ src = "RECORD" then
      "COALESCE(TO_JSON_STRING(" ++ f ++ "), '')"
    else "CAST(" ++ f ++ " AS STRING)"
  else if src = "STRING" then "CAST(" ++ f ++ " AS STRING)"
  else "SAFE_CAST(" ++ f ++ " AS " ++ tgt ++ ")"

/-- C5 counterexample: for a tenant field declared STRING with target type
INT64, the generator emits CAST(f AS STRING) — a cast to STRING, not a cast
expression from the declared type to the target type, and not the
use-default-on-failure cast to the target (which the code itself spells
SAFE_CAST(f AS INT64) for every other type pair). -/
theorem claim_C5_counterexample :
    generate_cast_for_field "f" "STRING" "INT64" = "CAST(f AS STRING)" ∧
    "CAST(f AS STRING)" ≠ "SAFE_CAST(f AS INT64)" ∧
    projectionLine [⟨"f", "STRING", "f", false⟩] ⟨"f", "INT64", 1, true, false, "f", false⟩ =
      "    CAST(f AS STRING) as f" :=
  ⟨by decide, by decide, by decide⟩

/-- C5 amended: for a canonical field present in the tenant and not
structural/repeated, the generator emits a pass-through when the declared
type equals the target type; otherwise a plain cast to STRING when the
target is STRING (JSON-serialized for semi-structured sources), a cast that
KEEPS the value as STRING when the declared type is STRING and the target is
not, and a lenient SAFE_CAST to the target type for every other pair. -/
theorem claim_C5_amended (cf : List FieldInfo) (fi : LayoutField) (src : String)
    (hpres : companyFieldType cf fi.field_name = some src)
    (hrep : fi.is_repeated = false) :
    projectionLine cf fi =
      "    " ++ castExprSpec fi.field_name src fi.target_type ++ " as " ++ fi.alias_name := by
  simp only [projectionLine, hpres, hrep, Bool.false_eq_true, if_false]
  have hmid : (if src = fi.target_type then fi.field_name
      else generate_cast_for_field fi.field_name src fi.target_type) =
      castExprSpec fi.field_name src fi.target_type := by
    by_cases h1 : src = fi.target_type
    · simp [castExprSpec, generate_cast_for_field, h1]
    · by_cases h2 : fi.target_type = "STRING"
      · have h5 : ¬ src = "STRING" := fun hs => h1 (hs.trans h2.symm)
        by_cases h3 : src = "JSON"
        · simp [castExprSpec, generate_cast_for_field, h1, h2, h3, h5]
        · by_cases h4 : src = "STRUCT" ∨ src = "ARRAY" ∨ src = "RECORD"
          · rcases h4 with h4 | h4 | h4 <;>
              simp [castExprSpec, generate_cast_for_field, h1, h2, h3, h4, h5]
          · simp [castExprSpec, generate_cast_for_field, h1, h2, h3, h4, h5]
      · by_cases h3 : src = "STRING"
        · have h5 : ¬ ("STRING" : String) = fi.target_type := fun hs => h1 (h3.trans hs)
          simp [castExprSpec, generate_cast_for_field, h1, h2, h3, h5]
        · simp [castExprSpec, generate_cast_for_field, h1, h2, h3]
  rw [hmid]

/-- Witness for the amended C5: a pass-through for matching STRING types and
a SAFE_CAST for a BOOL to INT64 mismatch. -/
theorem claim_C5_witness :
    projectionLine [⟨"id", "STRING", "id", false⟩]
      ⟨"id", "STRING", 1, true, false, "id", false⟩ = "    id as id" ∧
    projectionLine [⟨"ok", "BOOL", "ok", false⟩]
      ⟨"ok", "INT64", 1, true, false, "ok", false⟩ = "    SAFE_CAST(ok AS INT64) as ok" :=
  ⟨claim_C5_amended [⟨"id", "STRING", "id", false⟩]
      ⟨"id", "STRING", 1, true, false, "id", false⟩ "STRING" rfl rfl,
    claim_C5_amended [⟨"ok", "BOOL", "ok", false⟩]
      ⟨"ok", "INT64", 1, true, false, "ok", false⟩ "BOOL" rfl rfl⟩

/-- C9 counterexample: a load failure that is not a missing row (here a query
exception) produces exactly the same engine action as NotFound — the table is
skipped for the run with no retry of the load. -/
theorem claim_C9_counterexample :
    silverTableAction (LoadResult.queryError "connection reset") =
      TableAction.skipNoLayout ∧
    silverTableAction LoadResult.notFound = TableAction.skipNoLayout :=
  ⟨rfl, rfl⟩

/-- C9 amended: every load failure is caught inside
`get_table_metadata_from_metadata_table` and mapped to None, indistinguishable
from NotFound; the engine then records the table as having no layout and skips
it, without retrying the load — but it also does not substitute an empty or
freshly re-derived layout: no generation happens for the table in that run. -/
theorem claim_C9_amended (e : String) :
    get_table_metadata_from_metadata_table (LoadResult.queryError e) = none ∧
    silverTableAction (LoadResult.queryError e) = TableAction.skipNoLayout ∧
    silverTableAction (LoadResult.queryError e) = silverTableAction LoadResult.notFound :=
  ⟨rfl, rfl, rfl⟩

theorem mem_filterControlFields {fields : List FieldInfo} {g : FieldInfo}
    (hg : g ∈ filterControlFields fields) :
    startsWithChar (Char.ofNat 95) g.column_name = false := by
  have h := (List.mem_filter.mp hg).2
  simpa using h

theorem observed_no_underscore {companies : List CompanyFields} {f : String}
    (hf : f ∈ allFieldsList (analyzeCompanies companies)) :
    startsWithChar (Char.ofNat 95) f = false := by
  rw [allFieldsList] at hf
  rcases List.mem_flatten.mp hf with ⟨names, hnames, hfn⟩
  rcases List.mem_map.mp hnames with ⟨r, hr, rfl⟩
  rw [companyFieldNames] at hfn
  rcases List.mem_map.mp hfn with ⟨g, hg, rfl⟩
  rw [analyzeCompanies] at hr
  rcases List.mem_map.mp hr with ⟨c, _hc, rfl⟩
  exact mem_filterControlFields hg

/-- C10: every observed column starting with an underscore is filtered out
before classification and type analysis, so no layout field of an analysis
pass carries such a name, and every projection line generated for a tenant
(whose field list goes through the same filter) is the image of a layout
field with a non-underscore name. -/
theorem claim_C10_no_control_fields (uniq : List String → List String) (h : IsSetEnum uniq)
    (companies : List CompanyFields) (rawCF : List FieldInfo) :
    (∀ fi ∈ build_layout_definition_array uniq (analyzeCompanies companies),
      startsWithChar (Char.ofNat 95) fi.field_name = false) ∧
    (∀ s ∈ generate_silver_view_fields (filterControlFields rawCF)
        (build_layout_definition_array uniq (analyzeCompanies companies)),
      ∃ fi ∈ build_layout_definition_array uniq (analyzeCompanies companies),
        startsWithChar (Char.ofNat 95) fi.field_name = false ∧
        s = projectionLine (filterControlFields rawCF) fi) := by
  have hmain : ∀ fi ∈ build_layout_definition_array uniq (analyzeCompanies companies),
      startsWithChar (Char.ofNat 95) fi.field_name = false := by
    intro fi hfi
    have h1 : fi.field_name ∈ sortedFieldNames uniq (analyzeCompanies companies) :=
      mem_buildLayoutFrom uniq (analyzeCompanies companies) hfi
    rw [sortedFieldNames] at h1
    have h2 : fi.field_name ∈ allObservedFields uniq (analyzeCompanies companies) :=
      (List.mem_insertionSort StrLeRel).mp h1
    have h3 : fi.field_name ∈ allFieldsList (analyzeCompanies companies) :=
      ((h (allFieldsList (analyzeCompanies companies))).2 fi.field_name).mp h2
    exact observed_no_underscore h3
  refine ⟨hmain, fun s hs => ?_⟩
  rcases List.mem_map.mp hs with ⟨fi, hfi, rfl⟩
  exact ⟨fi, hfi, hmain fi hfi, rfl⟩

/-- Observations containing an ETL control column (Fivetran sync timestamp). -/
def c10Companies : List CompanyFields :=
  [⟨"co1", [⟨"_fivetran_synced", "TIMESTAMP", "_fivetran_synced", false⟩,
            ⟨"id", "INT64", "id", false⟩]⟩]

/-- Witness for C10: on observations that include an underscore-prefixed
control column, the layout field at position 0 has a non-underscore name. -/
theorem claim_C10_witness :
    startsWithChar (Char.ofNat 95)
      ((build_layout_definition_array List.dedup (analyzeCompanies c10Companies)).get
        ⟨0, by decide⟩).field_name = false := by
  have h := claim_C10_no_control_fields List.dedup isSetEnum_dedup c10Companies []
  exact h.1 _ (by decide)

theorem perm_headD_of_not_lt {A B : List String} (hp : List.Perm A B)
    (hlen : ¬ 1 < A.length) : A.headD "" = B.headD "" := by
  cases A with
  | nil =>
    have hB : B = [] := hp.symm.eq_nil
    rw [hB]
  | cons a as =>
    cases as with
    | nil =>
      have hB : B = [a] := List.perm_singleton.mp hp.symm
      rw [hB]
    | cons b bs =>
      exact absurd (by simp only [List.length_cons]; omega) hlen

theorem fieldTypeResolution_congr {u₁ u₂ : List String → List String}
    (h₁ : IsSetEnum u₁) (h₂ : IsSetEnum u₂) (r : List CompanyResult) (f : String) :
    fieldTypeResolution u₁ r f = fieldTypeResolution u₂ r f := by
  have hperm := setEnum_perm h₁ h₂ (fieldTypes r f)
  have hlen := hperm.length_eq
  by_cases hgt : 1 < (u₁ (fieldTypes r f)).length
  · have hgt2 : 1 < (u₂ (fieldTypes r f)).length := by omega
    have hs1 : determine_consensus_type u₁ (u₁ (fieldTypes r f)) = "STRING" :=
      determine_consensus_of_nodup_gt_one h₁ (h₁ (fieldTypes r f)).1 hgt
    have hs2 : determine_consensus_type u₂ (u₂ (fieldTypes r f)) = "STRING" :=
      determine_consensus_of_nodup_gt_one h₂ (h₂ (fieldTypes r f)).1 hgt2
    simp only [fieldTypeResolution, if_pos hgt, if_pos hgt2, hs1, hs2]
  · have hgt2 : ¬ 1 < (u₂ (fieldTypes r f)).length := by omega
    have hhead : (u₁ (fieldTypes r f)).headD "" = (u₂ (fieldTypes r f)).headD "" :=
      perm_headD_of_not_lt hperm hgt
    simp only [fieldTypeResolution, if_neg hgt, if_neg hgt2, hhead]

theorem mem_partialFields_iff {u : List String → List String} (h : IsSetEnum u)
    (r : List CompanyResult) (f : String) :
    f ∈ partialFields u r ↔
      (f ∈ allFieldsList r ∧ ¬ fieldFrequency r f = r.length) := by
  rw [partialFields, List.mem_filter, allObservedFields, (h (allFieldsList r)).2 f]
  simp

theorem layoutFieldFor_congr {u₁ u₂ : List String → List String}
    (h₁ : IsSetEnum u₁) (h₂ : IsSetEnum u₂) (r : List CompanyResult) (k : Nat) (f : String) :
    layoutFieldFor u₁ r k f = layoutFieldFor u₂ r k f := by
  have hres := fieldTypeResolution_congr h₁ h₂ r f
  have hpart : (f ∈ partialFields u₁ r) ↔ (f ∈ partialFields u₂ r) := by
    rw [mem_partialFields_iff h₁, mem_partialFields_iff h₂]
  have hdec : decide (f ∈ partialFields u₁ r) = decide (f ∈ partialFields u₂ r) :=
    decide_eq_decide.mpr hpart
  simp only [layoutFieldFor, hres, hdec]

theorem buildLayoutFrom_congr {u₁ u₂ : List String → List String}
    (h₁ : IsSetEnum u₁) (h₂ : IsSetEnum u₂) (r : List CompanyResult) :
    ∀ (names : List String) (k : Nat),
      buildLayoutFrom u₁ r k names = buildLayoutFrom u₂ r k names := by
  intro names
  induction names with
  | nil => intro k; rfl
  | cons f rest ih =>
    intro k
    show layoutFieldFor u₁ r k f :: buildLayoutFrom u₁ r (k + 1) rest =
      layoutFieldFor u₂ r k f :: buildLayoutFrom u₂ r (k + 1) rest
    rw [layoutFieldFor_congr h₁ h₂ r k f, ih (k + 1)]

theorem sortedFieldNames_congr {u₁ u₂ : List String → List String}
    (h₁ : IsSetEnum u₁) (h₂ : IsSetEnum u₂) (r : List CompanyResult) :
    sortedFieldNames u₁ r = sortedFieldNames u₂ r := by
  unfold sortedFieldNames
  exact @List.eq_of_perm_of_sorted String StrLeRel strLeRelIsAntisymm _ _
    (((List.perm_insertionSort StrLeRel _).trans (setEnum_perm h₁ h₂ _)).trans
      (List.perm_insertionSort StrLeRel _).symm)
    (List.sorted_insertionSort StrLeRel _) (List.sorted_insertionSort StrLeRel _)

/-- C8: determinism of the reconciliation pass — for a fixed observation set
and no prior persisted layout, the canonical layout produced by the
classifier, resolver and layout builder is the same for any two runs, i.e.
for any two enumeration orders Python's `set` iteration could produce (the
only run-to-run nondeterminism in the pass): same fields, same target types,
same flags, same `field_order` for every field. -/
theorem claim_C8_determinism (u₁ u₂ : List String → List String)
    (h₁ : IsSetEnum u₁) (h₂ : IsSetEnum u₂) (companies : List CompanyFields) :
    build_layout_definition_array u₁ (analyzeCompanies companies) =
      build_layout_definition_array u₂ (analyzeCompanies companies) := by
  rw [build_layout_definition_array, build_layout_definition_array,
    sortedFieldNames_congr h₁ h₂ (analyzeCompanies companies)]
  exact buildLayoutFrom_congr h₁ h₂ (analyzeCompanies companies) _ 1

/-- A second set enumeration, listing the members in the reverse order. -/
def dedupRev (l : List String) : List String :=
  l.dedup.reverse

theorem isSetEnum_dedupRev : IsSetEnum dedupRev := by
  intro l
  constructor
  · simpa [dedupRev] using l.nodup_dedup
  · intro a
    simp [dedupRev]

/-- Witness for C8: two concrete runs with different set-enumeration orders
produce the same layout on the example scenario. -/
theorem claim_C8_witness :
    build_layout_definition_array List.dedup (analyzeCompanies sampleCompanies) =
      build_layout_definition_array dedupRev (analyzeCompanies sampleCompanies) :=
  claim_C8_determinism List.dedup dedupRev isSetEnum_dedup isSetEnum_dedupRev sampleCompanies
